import Mathlib

/-!
Shallow embedding of the CCPlugins planning-enhancement installer
(`install-planning-enhancement.py`) and uninstaller
(`uninstall-planning-enhancement.py`).

Modelling conventions:
* A filesystem path is a list of components (`FsPath`); file contents are
  byte lists (`FileData`).  The filesystem (`FS`) is a pair of total maps:
  optional file contents per path and a directory-existence flag per path.
* Console output is modelled as a list of structured `OutLine` events, one
  event per `print` site of the scripts; purely static multi-line blocks
  (the usage guide, the cleanup-guidance text, the banners) are single
  events, since their contents are fixed string literals that no claim
  inspects.
* A failure of `shutil.copy2` (installer) or `Path.unlink` (uninstaller) is
  modelled by an oracle `err : String → Option String` giving the exception
  message raised (if any) while processing a given manifest file name; the
  scripts catch these per-file exceptions inside their loops.
* `sys.exit(n)` and Python's implicit exit 0 at the end of `main` are
  recorded as the `exitCode` field of the result structures.
* `input(...).lower()` responses are passed in as explicit string
  parameters (`resp1` for the uninstall confirmation, `resp2` for the
  cleanup-guidance offer); lowering is applied where the source applies it.
-/

/-- A filesystem path, as a list of path components. -/
abbrev FsPath := List String

/-- File contents, as a list of bytes. -/
abbrev FileData := List Nat

/-- A filesystem state: contents of each file (none = no such file) and a
directory-existence predicate. -/
structure FS where
  files : FsPath → Option FileData
  dirs : FsPath → Bool

/-- Write (create or overwrite) the file at `p` with contents `c`. -/
def FS.setFile (fs : FS) (p : FsPath) (c : FileData) : FS :=
  { fs with files := fun q => if q = p then some c else fs.files q }

/-- Delete the file at `p` (models `Path.unlink`). -/
def FS.delFile (fs : FS) (p : FsPath) : FS :=
  { fs with files := fun q => if q = p then none else fs.files q }

/-- `mkdir(parents=True, exist_ok=True)`: mark `d` and every ancestor of
`d` as an existing directory. -/
def FS.mkdirParents (fs : FS) (d : FsPath) : FS :=
  { fs with dirs := fun p => fs.dirs p || decide (d.take p.length = p) }

/-- One console output event, one constructor per `print` site of the two
scripts (static multi-line blocks are single events). -/
inductive OutLine where
  | installerHeader
  | creatingDir
  | installingCommands
  | targetDirLine (d : FsPath)
  | installed (name : String)
  | installFailed (name : String) (e : String)
  | sourceNotFound (name : String)
  | verifyingInstallation
  | verifyOk (name : String)
  | verifyMissing (name : String)
  | noCommandsInstalled
  | installSuccess (count : Nat)
  | usageGuide
  | installIssues
  | uninstallerHeader
  | confirmList
  | cancelled
  | dirNotFound
  | uninstallingCommands
  | commandsDirLine (d : FsPath)
  | removed (name : String)
  | removeFailed (name : String) (e : String)
  | fileNotFound (name : String)
  | verifyingUninstallation
  | verifyRemoved (name : String)
  | verifyStillExists (name : String)
  | uninstallSuccess (count : Nat)
  | uninstallIssues
  | sessionCleanupIntro
  | cleanupPromptShown
  | cleanupGuidance
  | uninstallCompleteBanner
  deriving DecidableEq

/-- The path `home / '.claude' / 'commands'` computed by
`get_claude_commands_dir` in both scripts. -/
def claudeCommandsPath (home : FsPath) : FsPath :=
  home ++ [".claude", "commands"]

/-- Python's `str.lower()` as applied to the prompt responses, modelled
character-wise (kernel-reducible, unlike `String.toLower`). -/
def strLower (s : String) : String := ⟨s.data.map Char.toLower⟩

/-- The source path `current_dir / 'commands' / command_file` of the
installer, written with the file name as a final singleton append. -/
def srcPath (current_dir : FsPath) (command_file : String) : FsPath :=
  (current_dir ++ ["commands"]) ++ [command_file]

/-- Result of a directory resolution step: possibly-updated filesystem,
the resolved directory, console output. -/
structure DirResult where
  fs : FS
  dir : FsPath
  log : List OutLine

/-- Result of an install/uninstall pass: updated filesystem, count of
successful copies/removals, console output. -/
structure StepResult where
  fs : FS
  count : Nat
  log : List OutLine

/-- Result of the installer's verification pass. -/
structure VerifyResult where
  fs : FS
  ok : Bool
  log : List OutLine

/-- Result of the installer's `main`: final filesystem, process exit code,
the `installed_count` it computed, the verification result (`none` when
verification was skipped because nothing was installed), console output. -/
structure MainResult where
  fs : FS
  exitCode : Nat
  installedCount : Nat
  verifyOk : Option Bool
  log : List OutLine

/-- Result of the uninstaller's `main`: final filesystem, exit code, the
`removed_count` (`none` when the run was cancelled), the verification
result (`none` when cancelled), console output. -/
structure UMainResult where
  fs : FS
  exitCode : Nat
  removedCount : Option Nat
  allRemoved : Option Bool
  log : List OutLine

namespace Installer

/-- `get_claude_commands_dir` of the installer: resolves
`home/.claude/commands`, creating it (with parents) when missing. -/
def get_claude_commands_dir (home : FsPath) (fs : FS) : DirResult :=
  let claude_dir := claudeCommandsPath home
  if fs.dirs claude_dir then ⟨fs, claude_dir, []⟩
  else ⟨fs.mkdirParents claude_dir, claude_dir, [.creatingDir]⟩

/-- The `planning_commands` literal of `install_commands`. -/
def planning_commands : List String :=
  ["requirements.md",
   "plan.md",
   "validate-implementation.md",
   "adr.md",
   "feature-status.md",
   "retrospective.md",
   "expand-tests.md",
   "expand-api.md",
   "expand-components.md",
   "expand-models.md"]

/-- The per-file loop of `install_commands`: for each manifest name, if the
source exists, try the copy (the oracle `err` decides whether `copy2`
raises); a raised exception is caught and reported and the loop continues;
a missing source is reported without attempting the copy. -/
def installLoop (d : FsPath) (current_dir : FsPath) (err : String → Option String) :
    List String → FS → StepResult
  | [], fs => ⟨fs, 0, []⟩
  | command_file :: rest, fs =>
    let source_path := srcPath current_dir command_file
    let target_path := d ++ [command_file]
    match fs.files source_path with
    | some c =>
      match err command_file with
      | none =>
        let r := installLoop d current_dir err rest (fs.setFile target_path c)
        ⟨r.fs, r.count + 1, .installed command_file :: r.log⟩
      | some e =>
        let r := installLoop d current_dir err rest fs
        ⟨r.fs, r.count, .installFailed command_file e :: r.log⟩
    | none =>
      let r := installLoop d current_dir err rest fs
      ⟨r.fs, r.count, .sourceNotFound command_file :: r.log⟩

/-- `install_commands`: resolve the target directory, then copy each
manifest file, returning the count of successful copies. -/
def install_commands (home current_dir : FsPath) (err : String → Option String)
    (fs : FS) : StepResult :=
  let dr := get_claude_commands_dir home fs
  let r := installLoop dr.dir current_dir err planning_commands dr.fs
  ⟨r.fs, r.count, dr.log ++ [.installingCommands, .targetDirLine dr.dir] ++ r.log⟩

/-- The `planning_commands` literal of `verify_installation`. -/
def verify_planning_commands : List String :=
  ["requirements.md",
   "plan.md",
   "validate-implementation.md",
   "adr.md",
   "feature-status.md",
   "retrospective.md",
   "expand-tests.md",
   "expand-api.md",
   "expand-components.md",
   "expand-models.md"]

/-- The per-file loop of `verify_installation`: report OK/MISSING for each
manifest name and accumulate `all_installed`. -/
def verifyLoop (d : FsPath) (fs : FS) : List String → Bool × List OutLine
  | [] => (true, [])
  | command_file :: rest =>
    let r := verifyLoop d fs rest
    if (fs.files (d ++ [command_file])).isSome then
      (r.1, .verifyOk command_file :: r.2)
    else
      (false, .verifyMissing command_file :: r.2)

/-- `verify_installation`: resolve the target directory (the shared
resolver, which creates it when missing) and check existence of every
manifest name. -/
def verify_installation (home : FsPath) (fs : FS) : VerifyResult :=
  let dr := get_claude_commands_dir home fs
  let r := verifyLoop dr.dir dr.fs verify_planning_commands
  ⟨dr.fs, r.1, dr.log ++ [.verifyingInstallation] ++ r.2⟩

/-- `main` of the installer: install, exit 1 if nothing was installed,
otherwise verify; on full verification print the usage guide and exit 0,
otherwise exit 1.  (Nothing in the modelled body raises, so the top-level
`except` branch is unreachable.) -/
def main (home current_dir : FsPath) (err : String → Option String) (fs : FS) :
    MainResult :=
  let hdr : List OutLine := [.installerHeader]
  let ic := install_commands home current_dir err fs
  if ic.count = 0 then
    ⟨ic.fs, 1, ic.count, none, hdr ++ ic.log ++ [.noCommandsInstalled]⟩
  else
    let v := verify_installation home ic.fs
    if v.ok then
      ⟨v.fs, 0, ic.count, some true,
        hdr ++ ic.log ++ v.log ++ [.installSuccess ic.count, .usageGuide]⟩
    else
      ⟨v.fs, 1, ic.count, some false, hdr ++ ic.log ++ v.log ++ [.installIssues]⟩

end Installer

namespace Uninstaller

/-- `get_claude_commands_dir` of the uninstaller: resolves
`home/.claude/commands` without creating anything (pure). -/
def get_claude_commands_dir (home : FsPath) : FsPath :=
  claudeCommandsPath home

/-- The `planning_commands` literal of `uninstall_commands`. -/
def planning_commands : List String :=
  ["requirements.md",
   "plan.md",
   "validate-implementation.md",
   "adr.md",
   "feature-status.md",
   "retrospective.md",
   "expand-tests.md",
   "expand-api.md",
   "expand-components.md",
   "expand-models.md"]

/-- The per-file loop of `uninstall_commands`: delete each existing
manifest file (the oracle `delErr` decides whether `unlink` raises; a
raised exception is caught and reported and the loop continues); a missing
file is reported as "not found". -/
def uninstallLoop (d : FsPath) (delErr : String → Option String) :
    List String → FS → StepResult
  | [], fs => ⟨fs, 0, []⟩
  | command_file :: rest, fs =>
    let command_path := d ++ [command_file]
    if (fs.files command_path).isSome then
      match delErr command_file with
      | none =>
        let r := uninstallLoop d delErr rest (fs.delFile command_path)
        ⟨r.fs, r.count + 1, .removed command_file :: r.log⟩
      | some e =>
        let r := uninstallLoop d delErr rest fs
        ⟨r.fs, r.count, .removeFailed command_file e :: r.log⟩
    else
      let r := uninstallLoop d delErr rest fs
      ⟨r.fs, r.count, .fileNotFound command_file :: r.log⟩

/-- `uninstall_commands`: if the commands directory does not exist, report
"nothing to uninstall" and return 0; otherwise delete each manifest file,
returning the count of successful removals. -/
def uninstall_commands (home : FsPath) (delErr : String → Option String)
    (fs : FS) : StepResult :=
  let commands_dir := get_claude_commands_dir home
  if fs.dirs commands_dir then
    let r := uninstallLoop commands_dir delErr planning_commands fs
    ⟨r.fs, r.count, [.uninstallingCommands, .commandsDirLine commands_dir] ++ r.log⟩
  else
    ⟨fs, 0, [.dirNotFound]⟩

/-- The `planning_commands` literal of `verify_uninstallation`. -/
def verify_planning_commands : List String :=
  ["requirements.md",
   "plan.md",
   "validate-implementation.md",
   "adr.md",
   "feature-status.md",
   "retrospective.md",
   "expand-tests.md",
   "expand-api.md",
   "expand-components.md",
   "expand-models.md"]

/-- The per-file loop of `verify_uninstallation`: report
REMOVED/STILL-EXISTS for each manifest name and accumulate `all_removed`. -/
def verifyLoop (d : FsPath) (fs : FS) : List String → Bool × List OutLine
  | [] => (true, [])
  | command_file :: rest =>
    let r := verifyLoop d fs rest
    if (fs.files (d ++ [command_file])).isSome then
      (false, .verifyStillExists command_file :: r.2)
    else
      (r.1, .verifyRemoved command_file :: r.2)

/-- `verify_uninstallation`: purely observational check that every
manifest name is absent from the commands directory. -/
def verify_uninstallation (home : FsPath) (fs : FS) : Bool × List OutLine :=
  let d := get_claude_commands_dir home
  let r := verifyLoop d fs verify_planning_commands
  (r.1, .verifyingUninstallation :: r.2)

/-- The confirmation tokens accepted by both prompts:
`['y', 'yes']` compared against the lowercased response. -/
def yesResponses : List String := ["y", "yes"]

/-- `cleanup_session_files`: print the static intro, prompt, and print the
static guidance if the (lowercased) response is `y`/`yes`. -/
def cleanup_session_files (resp : String) : List OutLine :=
  [.sessionCleanupIntro, .cleanupPromptShown] ++
    (if yesResponses.contains (strLower resp) then [.cleanupGuidance] else [])

/-- `main` of the uninstaller: confirm (lowercased `resp1` must be
`y`/`yes`, otherwise print "Uninstallation cancelled." and exit 0); then
uninstall, verify (printing the success message or a warning line, which
does not gate the exit code), offer cleanup guidance, print the completion
banner, and exit 0.  (Nothing in the modelled body raises, so the
top-level `except` branch is unreachable.) -/
def main (home : FsPath) (resp1 resp2 : String) (delErr : String → Option String)
    (fs : FS) : UMainResult :=
  let hdr : List OutLine := [.uninstallerHeader, .confirmList]
  if yesResponses.contains (strLower resp1) then
    let u := uninstall_commands home delErr fs
    let v := verify_uninstallation home u.fs
    let mid : List OutLine :=
      if v.1 then [.uninstallSuccess u.count] else [.uninstallIssues]
    ⟨u.fs, 0, some u.count, some v.1,
      hdr ++ u.log ++ v.2 ++ mid ++ cleanup_session_files resp2 ++
        [.uninstallCompleteBanner]⟩
  else
    ⟨fs, 0, none, none, hdr ++ [.cancelled]⟩

end Uninstaller

/-- The manifest as the specification states it: the single fixed ordered
list of 10 filenames. -/
def specManifest : List String :=
  ["requirements.md",
   "plan.md",
   "validate-implementation.md",
   "adr.md",
   "feature-status.md",
   "retrospective.md",
   "expand-tests.md",
   "expand-api.md",
   "expand-components.md",
   "expand-models.md"]

/-- C5: the manifest is a single fixed ordered list of 10 filenames, and
every hard-coded occurrence of the list — in the installer's install and
verify functions and in the uninstaller's uninstall and verify functions —
is identical to it, element for element and in order. -/
theorem manifest_lists_identical :
    specManifest.length = 10
    ∧ Installer.planning_commands = specManifest
    ∧ Installer.verify_planning_commands = specManifest
    ∧ Uninstaller.planning_commands = specManifest
    ∧ Uninstaller.verify_planning_commands = specManifest :=
  ⟨rfl, rfl, rfl, rfl, rfl⟩

/-- Two paths ending in a singleton component are equal only if those final
components are equal. -/
theorem append_singleton_inj {a b : FsPath} {x y : String}
    (h : a ++ [x] = b ++ [y]) : x = y := by
  have h' := congrArg List.reverse h
  simp only [List.reverse_append, List.reverse_cons, List.reverse_nil,
    List.nil_append, List.singleton_append, List.cons.injEq] at h'
  exact h'.1

/-- Copying a manifest file to its target never changes what is stored at
any source path: a target path can coincide only with the source path of
the same name, and in that case the copied bytes are the bytes already
there. -/
theorem setFile_preserves_src (fs : FS) (d cur : FsPath) (n : String)
    (c : FileData) (h : fs.files (srcPath cur n) = some c) (m : String) :
    (fs.setFile (d ++ [n]) c).files (srcPath cur m) = fs.files (srcPath cur m) := by
  show (if srcPath cur m = d ++ [n] then some c else fs.files (srcPath cur m))
      = fs.files (srcPath cur m)
  split
  · next heq =>
    have hmn : m = n := append_singleton_inj heq
    subst hmn
    exact h.symm
  · rfl

/-- The install loop never changes the contents stored at any source path. -/
theorem installLoop_src_files (d cur : FsPath) (err : String → Option String) :
    ∀ (names : List String) (fs : FS) (m : String),
      (Installer.installLoop d cur err names fs).fs.files (srcPath cur m)
        = fs.files (srcPath cur m) := by
  intro names
  induction names with
  | nil => intro fs m; rfl
  | cons n rest ih =>
    intro fs m
    simp only [Installer.installLoop]
    cases hsrc : fs.files (srcPath cur n) with
    | some c =>
      cases herr : err n with
      | none =>
        simp only
        rw [ih, setFile_preserves_src fs d cur n c hsrc m]
      | some e => simp only; rw [ih]
    | none => simp only; rw [ih]

/-- The install loop never changes the directory map. -/
theorem installLoop_dirs (d cur : FsPath) (err : String → Option String) :
    ∀ (names : List String) (fs : FS),
      (Installer.installLoop d cur err names fs).fs.dirs = fs.dirs := by
  intro names
  induction names with
  | nil => intro fs; rfl
  | cons n rest ih =>
    intro fs
    simp only [Installer.installLoop]
    cases hsrc : fs.files (srcPath cur n) with
    | some c =>
      cases herr : err n with
      | none => simp only; rw [ih]; rfl
      | some e => simp only; rw [ih]
    | none => simp only; rw [ih]

/-- The install loop returns exactly the number of manifest entries whose
source exists (in the starting state) and whose copy does not raise. -/
theorem installLoop_count (d cur : FsPath) (err : String → Option String) :
    ∀ (names : List String) (fs : FS),
      (Installer.installLoop d cur err names fs).count
        = names.countP
            (fun n => (fs.files (srcPath cur n)).isSome && (err n).isNone) := by
  intro names
  induction names with
  | nil => intro fs; rfl
  | cons n rest ih =>
    intro fs
    rw [List.countP_cons]
    simp only [Installer.installLoop]
    cases hsrc : fs.files (srcPath cur n) with
    | some c =>
      cases herr : err n with
      | none =>
        simp only
        have hpred :
            (fun m => ((fs.setFile (d ++ [n]) c).files (srcPath cur m)).isSome
                && (err m).isNone)
            = (fun m => (fs.files (srcPath cur m)).isSome && (err m).isNone) := by
          funext m
          rw [setFile_preserves_src fs d cur n c hsrc m]
        rw [ih, hpred]
        simp
      | some e =>
        simp only
        rw [ih]
        simp
    | none =>
      simp only
      rw [ih]
      simp

/-- The report line the install loop produces for one manifest entry. -/
def installReport (cur : FsPath) (err : String → Option String) (fs : FS)
    (n : String) : OutLine :=
  match fs.files (srcPath cur n), err n with
  | some _, none => .installed n
  | some _, some e => .installFailed n e
  | none, _ => .sourceNotFound n

/-- The install loop reports exactly one line per manifest entry: installed,
failed-with-the-exception, or source-not-found, decided by the starting
state. -/
theorem installLoop_log (d cur : FsPath) (err : String → Option String) :
    ∀ (names : List String) (fs : FS),
      (Installer.installLoop d cur err names fs).log
        = names.map (installReport cur err fs) := by
  intro names
  induction names with
  | nil => intro fs; rfl
  | cons n rest ih =>
    intro fs
    simp only [Installer.installLoop, List.map_cons]
    cases hsrc : fs.files (srcPath cur n) with
    | some c =>
      cases herr : err n with
      | none =>
        simp only
        have hrep : installReport cur err (fs.setFile (d ++ [n]) c)
            = installReport cur err fs := by
          funext m
          unfold installReport
          rw [setFile_preserves_src fs d cur n c hsrc m]
        rw [ih, hrep]
        unfold installReport
        rw [hsrc, herr]
      | some e =>
        simp only
        rw [ih]
        unfold installReport
        rw [hsrc, herr]
    | none =>
      simp only
      rw [ih]
      unfold installReport
      rw [hsrc]

/-- Frame property of the install loop: a path that is no manifest entry's
target is untouched. -/
theorem installLoop_frame (d cur : FsPath) (err : String → Option String) :
    ∀ (names : List String) (fs : FS) (p : FsPath),
      (∀ n ∈ names, p ≠ d ++ [n]) →
      (Installer.installLoop d cur err names fs).fs.files p = fs.files p := by
  intro names
  induction names with
  | nil => intro fs p _; rfl
  | cons n rest ih =>
    intro fs p hp
    have hpn : p ≠ d ++ [n] := hp n (List.mem_cons_self n rest)
    have hprest : ∀ m ∈ rest, p ≠ d ++ [m] :=
      fun m hm => hp m (List.mem_cons_of_mem n hm)
    simp only [Installer.installLoop]
    cases hsrc : fs.files (srcPath cur n) with
    | some c =>
      cases herr : err n with
      | none =>
        simp only
        rw [ih _ p hprest]
        show (if p = d ++ [n] then some c else fs.files p) = fs.files p
        rw [if_neg hpn]
      | some e => simp only; rw [ih _ p hprest]
    | none => simp only; rw [ih _ p hprest]

/-- After the install loop, the target of every successfully copied entry
holds exactly the bytes of its source (overwriting whatever was there). -/
theorem installLoop_target (d cur : FsPath) (err : String → Option String) :
    ∀ (names : List String) (fs : FS) (n : String) (c : FileData),
      names.Nodup → n ∈ names →
      fs.files (srcPath cur n) = some c → err n = none →
      (Installer.installLoop d cur err names fs).fs.files (d ++ [n]) = some c := by
  intro names
  induction names with
  | nil => intro fs n c _ hmem; exact absurd hmem (List.not_mem_nil n)
  | cons m rest ih =>
    intro fs n c hnodup hmem hsrc herr
    rcases List.mem_cons.mp hmem with heq | hmemrest
    · subst heq
      simp only [Installer.installLoop]
      rw [hsrc, herr]
      simp only
      have hnotin : n ∉ rest := (List.nodup_cons.mp hnodup).1
      have hframe : ∀ k ∈ rest, (d ++ [n] : FsPath) ≠ d ++ [k] := by
        intro k hk hcontra
        exact hnotin (append_singleton_inj hcontra ▸ hk)
      rw [installLoop_frame d cur err rest _ _ hframe]
      show (if (d ++ [n] : FsPath) = d ++ [n] then some c else _) = some c
      rw [if_pos rfl]
    · simp only [Installer.installLoop]
      cases hsrcm : fs.files (srcPath cur m) with
      | some cm =>
        cases herrm : err m with
        | none =>
          simp only
          exact ih _ n c (List.nodup_cons.mp hnodup).2 hmemrest
            (by rw [setFile_preserves_src fs d cur m cm hsrcm n]; exact hsrc) herr
        | some e =>
          simp only
          exact ih _ n c (List.nodup_cons.mp hnodup).2 hmemrest hsrc herr
      | none =>
        simp only
        exact ih _ n c (List.nodup_cons.mp hnodup).2 hmemrest hsrc herr

/-- The install loop never deletes a file: any path holding a file keeps
holding one. -/
theorem installLoop_mono (d cur : FsPath) (err : String → Option String) :
    ∀ (names : List String) (fs : FS) (p : FsPath),
      (fs.files p).isSome = true →
      ((Installer.installLoop d cur err names fs).fs.files p).isSome = true := by
  intro names
  induction names with
  | nil => intro fs p h; exact h
  | cons n rest ih =>
    intro fs p h
    simp only [Installer.installLoop]
    cases hsrc : fs.files (srcPath cur n) with
    | some c =>
      cases herr : err n with
      | none =>
        simp only
        apply ih
        show ((if p = d ++ [n] then some c else fs.files p).isSome) = true
        split
        · rfl
        · exact h
      | some e => simp only; exact ih _ p h
    | none => simp only; exact ih _ p h

/-- The installer's verify loop computes the conjunction of the existence
checks of all manifest names. -/
theorem installVerifyLoop_ok (d : FsPath) (fs : FS) :
    ∀ names : List String,
      (Installer.verifyLoop d fs names).1
        = names.all (fun n => (fs.files (d ++ [n])).isSome) := by
  intro names
  induction names with
  | nil => rfl
  | cons n rest ih =>
    rw [List.all_cons]
    simp only [Installer.verifyLoop]
    split
    · next h => rw [ih]; simp [h]
    · next h =>
      have hb : (fs.files (d ++ [n])).isSome = false := by
        cases hx : (fs.files (d ++ [n])).isSome with
        | true => exact absurd hx h
        | false => rfl
      rw [hb]
      simp

/-- The installer's verify loop reports exactly one OK/MISSING line per
manifest name. -/
theorem installVerifyLoop_log (d : FsPath) (fs : FS) :
    ∀ names : List String,
      (Installer.verifyLoop d fs names).2
        = names.map (fun n => if (fs.files (d ++ [n])).isSome
            then OutLine.verifyOk n else OutLine.verifyMissing n) := by
  intro names
  induction names with
  | nil => rfl
  | cons n rest ih =>
    simp only [Installer.verifyLoop, List.map_cons]
    split
    · next h => rw [ih]
    · next h => rw [ih]

/-- The uninstaller's verify loop computes the conjunction of the
absence checks of all manifest names. -/
theorem uninstallVerifyLoop_ok (d : FsPath) (fs : FS) :
    ∀ names : List String,
      (Uninstaller.verifyLoop d fs names).1
        = names.all (fun n => !(fs.files (d ++ [n])).isSome) := by
  intro names
  induction names with
  | nil => rfl
  | cons n rest ih =>
    rw [List.all_cons]
    simp only [Uninstaller.verifyLoop]
    split
    · next h => simp [h]
    · next h =>
      have hb : (fs.files (d ++ [n])).isSome = false := by
        cases hx : (fs.files (d ++ [n])).isSome with
        | true => exact absurd hx h
        | false => rfl
      rw [ih, hb]
      simp

/-- The uninstaller's verify loop reports exactly one
REMOVED/STILL-EXISTS line per manifest name. -/
theorem uninstallVerifyLoop_log (d : FsPath) (fs : FS) :
    ∀ names : List String,
      (Uninstaller.verifyLoop d fs names).2
        = names.map (fun n => if (fs.files (d ++ [n])).isSome
            then OutLine.verifyStillExists n else OutLine.verifyRemoved n) := by
  intro names
  induction names with
  | nil => rfl
  | cons n rest ih =>
    simp only [Uninstaller.verifyLoop, List.map_cons]
    split
    · next h => rw [ih]
    · next h => rw [ih]

/-- `mkdir(parents=True)` changes no file. -/
theorem mkdirParents_files (fs : FS) (d : FsPath) :
    (fs.mkdirParents d).files = fs.files := rfl

/-- `mkdir(parents=True)` marks the requested directory as existing. -/
theorem mkdirParents_dirs_self (fs : FS) (d : FsPath) :
    (fs.mkdirParents d).dirs d = true := by
  show (fs.dirs d || decide (d.take d.length = d)) = true
  simp

/-- The installer's directory resolver changes no file. -/
theorem install_resolver_files (home : FsPath) (fs : FS) :
    (Installer.get_claude_commands_dir home fs).fs.files = fs.files := by
  simp only [Installer.get_claude_commands_dir]
  split
  · rfl
  · rfl

/-- The installer's directory resolver always resolves
`home/.claude/commands`. -/
theorem install_resolver_dir (home : FsPath) (fs : FS) :
    (Installer.get_claude_commands_dir home fs).dir = claudeCommandsPath home := by
  simp only [Installer.get_claude_commands_dir]
  split
  · rfl
  · rfl

/-- After the installer's directory resolver, the commands directory
exists. -/
theorem install_resolver_dirs_true (home : FsPath) (fs : FS) :
    (Installer.get_claude_commands_dir home fs).fs.dirs (claudeCommandsPath home)
      = true := by
  simp only [Installer.get_claude_commands_dir]
  split
  · next h => exact h
  · exact mkdirParents_dirs_self fs (claudeCommandsPath home)

/-- When the commands directory already exists, the installer's resolver
is a no-op on the filesystem and prints nothing. -/
theorem install_resolver_exists (home : FsPath) (fs : FS)
    (h : fs.dirs (claudeCommandsPath home) = true) :
    Installer.get_claude_commands_dir home fs
      = ⟨fs, claudeCommandsPath home, []⟩ := by
  simp only [Installer.get_claude_commands_dir]
  rw [if_pos h]

/-- Directory-existence flags after the installer's resolver: unchanged
flags, except that when the commands directory was missing it and its
ancestors are now marked existing. -/
theorem install_resolver_dirs (home : FsPath) (fs : FS) (p : FsPath) :
    (Installer.get_claude_commands_dir home fs).fs.dirs p
      = (fs.dirs p
         || (!fs.dirs (claudeCommandsPath home)
             && decide ((claudeCommandsPath home).take p.length = p))) := by
  simp only [Installer.get_claude_commands_dir]
  split
  · next h => rw [h]; simp
  · next h =>
    have hb : fs.dirs (claudeCommandsPath home) = false := by
      cases hd : fs.dirs (claudeCommandsPath home) with
      | true => exact absurd hd h
      | false => rfl
    show (fs.dirs p || decide ((claudeCommandsPath home).take p.length = p)) = _
    rw [hb]
    simp

/-- Console output of the installer's resolver: a "creating" line exactly
when the commands directory was missing. -/
theorem install_resolver_log (home : FsPath) (fs : FS) :
    (Installer.get_claude_commands_dir home fs).log
      = (if fs.dirs (claudeCommandsPath home) then [] else [OutLine.creatingDir]) := by
  simp only [Installer.get_claude_commands_dir]
  split
  · rfl
  · rfl

/-- `installReport` depends only on the file map. -/
theorem installReport_files_congr {fs₁ fs₂ : FS} (h : fs₁.files = fs₂.files)
    (cur : FsPath) (err : String → Option String) :
    installReport cur err fs₁ = installReport cur err fs₂ := by
  funext n
  unfold installReport
  rw [h]

/-- `install_commands` returns exactly the number of manifest entries whose
source file exists and whose copy does not raise. -/
theorem install_commands_count (home cur : FsPath) (err : String → Option String)
    (fs : FS) :
    (Installer.install_commands home cur err fs).count
      = Installer.planning_commands.countP
          (fun n => (fs.files (srcPath cur n)).isSome && (err n).isNone) := by
  simp only [Installer.install_commands]
  rw [installLoop_count, install_resolver_files]

/-- The console output of `install_commands`: the resolver's output, the
two header lines, then exactly one report line per manifest entry. -/
theorem install_commands_log (home cur : FsPath) (err : String → Option String)
    (fs : FS) :
    (Installer.install_commands home cur err fs).log
      = (if fs.dirs (claudeCommandsPath home) then [] else [OutLine.creatingDir])
        ++ [OutLine.installingCommands, OutLine.targetDirLine (claudeCommandsPath home)]
        ++ Installer.planning_commands.map (installReport cur err fs) := by
  simp only [Installer.install_commands]
  rw [installLoop_log, install_resolver_dir, install_resolver_log,
    installReport_files_congr (install_resolver_files home fs) cur err]

/-- `install_commands` never changes any source file. -/
theorem install_commands_src_files (home cur : FsPath) (err : String → Option String)
    (fs : FS) (m : String) :
    (Installer.install_commands home cur err fs).fs.files (srcPath cur m)
      = fs.files (srcPath cur m) := by
  simp only [Installer.install_commands]
  rw [installLoop_src_files, install_resolver_files]

/-- After `install_commands` the commands directory exists. -/
theorem install_commands_dirs_true (home cur : FsPath) (err : String → Option String)
    (fs : FS) :
    (Installer.install_commands home cur err fs).fs.dirs (claudeCommandsPath home)
      = true := by
  simp only [Installer.install_commands]
  rw [installLoop_dirs]
  exact install_resolver_dirs_true home fs

/-- After `install_commands`, the target of every successfully copied
manifest entry holds exactly the bytes of its source. -/
theorem install_commands_target (home cur : FsPath) (err : String → Option String)
    (fs : FS) (n : String) (c : FileData)
    (hmem : n ∈ Installer.planning_commands)
    (hsrc : fs.files (srcPath cur n) = some c) (herr : err n = none) :
    (Installer.install_commands home cur err fs).fs.files
        ((claudeCommandsPath home) ++ [n]) = some c := by
  simp only [Installer.install_commands]
  rw [install_resolver_dir]
  exact installLoop_target (claudeCommandsPath home) cur err
    Installer.planning_commands _ n c (by decide) hmem
    (by rw [install_resolver_files]; exact hsrc) herr

/-- `install_commands` never deletes a file. -/
theorem install_commands_mono (home cur : FsPath) (err : String → Option String)
    (fs : FS) (p : FsPath) (h : (fs.files p).isSome = true) :
    ((Installer.install_commands home cur err fs).fs.files p).isSome = true := by
  simp only [Installer.install_commands]
  apply installLoop_mono
  rw [install_resolver_files]
  exact h

/-- `verify_installation` changes no file. -/
theorem verify_installation_files (home : FsPath) (fs : FS) :
    (Installer.verify_installation home fs).fs.files = fs.files := by
  simp only [Installer.verify_installation]
  exact install_resolver_files home fs

/-- Directory flags after `verify_installation`: unchanged, except that a
missing commands directory (and its ancestors) is created by the shared
resolver. -/
theorem verify_installation_dirs (home : FsPath) (fs : FS) (p : FsPath) :
    (Installer.verify_installation home fs).fs.dirs p
      = (fs.dirs p
         || (!fs.dirs (claudeCommandsPath home)
             && decide ((claudeCommandsPath home).take p.length = p))) := by
  simp only [Installer.verify_installation]
  exact install_resolver_dirs home fs p

/-- `verify_installation` succeeds iff every manifest name exists in the
commands directory. -/
theorem verify_installation_ok (home : FsPath) (fs : FS) :
    (Installer.verify_installation home fs).ok
      = Installer.verify_planning_commands.all
          (fun n => (fs.files ((claudeCommandsPath home) ++ [n])).isSome) := by
  simp only [Installer.verify_installation]
  rw [installVerifyLoop_ok, install_resolver_dir, install_resolver_files]

/-- Console output of `verify_installation`: the resolver's output, the
header, then exactly one OK/MISSING line per manifest name. -/
theorem verify_installation_log (home : FsPath) (fs : FS) :
    (Installer.verify_installation home fs).log
      = (if fs.dirs (claudeCommandsPath home) then [] else [OutLine.creatingDir])
        ++ [OutLine.verifyingInstallation]
        ++ Installer.verify_planning_commands.map
            (fun n => if (fs.files ((claudeCommandsPath home) ++ [n])).isSome
              then OutLine.verifyOk n else OutLine.verifyMissing n) := by
  simp only [Installer.verify_installation]
  rw [installVerifyLoop_log, install_resolver_dir, install_resolver_files,
    install_resolver_log]

/-- When the commands directory already exists, `verify_installation`
leaves the filesystem untouched. -/
theorem verify_installation_noop (home : FsPath) (fs : FS)
    (h : fs.dirs (claudeCommandsPath home) = true) :
    (Installer.verify_installation home fs).fs = fs := by
  simp only [Installer.verify_installation]
  rw [install_resolver_exists home fs h]

/-- The count `main` reports is the count `install_commands` returned. -/
theorem installer_main_installedCount (home cur : FsPath)
    (err : String → Option String) (fs : FS) :
    (Installer.main home cur err fs).installedCount
      = (Installer.install_commands home cur err fs).count := by
  simp only [Installer.main]
  split
  · rfl
  · split
    · rfl
    · rfl

/-- The filesystem after the installer's `main` is the one produced by
`install_commands` (the verification pass finds the directory already
created and changes nothing). -/
theorem installer_main_fs (home cur : FsPath) (err : String → Option String)
    (fs : FS) :
    (Installer.main home cur err fs).fs
      = (Installer.install_commands home cur err fs).fs := by
  simp only [Installer.main]
  have hnoop := verify_installation_noop home
    (Installer.install_commands home cur err fs).fs
    (install_commands_dirs_true home cur err fs)
  split
  · rfl
  · split
    · exact hnoop
    · exact hnoop

/-- The verification result `main` records: skipped when nothing was
installed, otherwise the result of `verify_installation` on the
post-install filesystem. -/
theorem installer_main_verifyOk (home cur : FsPath) (err : String → Option String)
    (fs : FS) :
    (Installer.main home cur err fs).verifyOk
      = (if (Installer.install_commands home cur err fs).count = 0 then none
         else some (Installer.verify_installation home
             (Installer.install_commands home cur err fs).fs).ok) := by
  simp only [Installer.main]
  split
  · rfl
  · split
    · next hv => rw [hv]
    · next hv =>
      have hb : (Installer.verify_installation home
          (Installer.install_commands home cur err fs).fs).ok = false := by
        cases hx : (Installer.verify_installation home
            (Installer.install_commands home cur err fs).fs).ok with
        | true => exact absurd hx hv
        | false => rfl
      rw [hb]

/-- The exit code of the installer's `main`: 1 when nothing was installed,
else 0 or 1 according to the verification result. -/
theorem installer_main_exitCode (home cur : FsPath) (err : String → Option String)
    (fs : FS) :
    (Installer.main home cur err fs).exitCode
      = (if (Installer.install_commands home cur err fs).count = 0 then 1
         else if (Installer.verify_installation home
             (Installer.install_commands home cur err fs).fs).ok then 0 else 1) := by
  simp only [Installer.main]
  split
  · rfl
  · split
    · rfl
    · rfl

/-- No per-file install report line is the usage guide. -/
theorem installReport_ne_usage (cur : FsPath) (err : String → Option String)
    (fs : FS) (n : String) :
    installReport cur err fs n ≠ OutLine.usageGuide := by
  unfold installReport
  cases fs.files (srcPath cur n) with
  | some c =>
    cases err n with
    | none => simp
    | some e => simp
  | none => simp

/-- The usage guide never appears in the output of `install_commands`. -/
theorem usage_not_mem_install_log (home cur : FsPath)
    (err : String → Option String) (fs : FS) :
    OutLine.usageGuide ∉ (Installer.install_commands home cur err fs).log := by
  rw [install_commands_log]
  intro hmem
  rcases List.mem_append.mp hmem with h | h
  · rcases List.mem_append.mp h with h | h
    · by_cases hd : fs.dirs (claudeCommandsPath home) = true
      · rw [if_pos hd] at h
        exact List.not_mem_nil _ h
      · rw [if_neg hd] at h
        simp at h
    · simp at h
  · rcases List.mem_map.mp h with ⟨n, _, hn⟩
    exact installReport_ne_usage cur err fs n hn

/-- The usage guide never appears in the output of `verify_installation`. -/
theorem usage_not_mem_verify_log (home : FsPath) (fs : FS) :
    OutLine.usageGuide ∉ (Installer.verify_installation home fs).log := by
  rw [verify_installation_log]
  intro hmem
  rcases List.mem_append.mp hmem with h | h
  · rcases List.mem_append.mp h with h | h
    · by_cases hd : fs.dirs (claudeCommandsPath home) = true
      · rw [if_pos hd] at h
        exact List.not_mem_nil _ h
      · rw [if_neg hd] at h
        simp at h
    · simp at h
  · rcases List.mem_map.mp h with ⟨n, _, hn⟩
    revert hn
    split
    · simp
    · simp

/-- C1: in every run of the installer's `main`, a zero success count exits
with code 1; a non-zero count with all 10 manifest names present in the
target directory prints the usage guide and exits 0; a non-zero count with
at least one name missing exits 1 without printing the usage guide.  (The
exit code is 1 exactly when the count is zero or verification failed; the
usage guide is printed exactly when the count is non-zero and verification
found every manifest name present.) -/
theorem installer_main_outcomes (home cur : FsPath) (err : String → Option String)
    (fs : FS) :
    (Installer.main home cur err fs).exitCode
      = (if (Installer.main home cur err fs).installedCount = 0 then 1
         else if (Installer.main home cur err fs).verifyOk = some true then 0 else 1)
    ∧ ((Installer.main home cur err fs).installedCount ≠ 0 →
        (Installer.main home cur err fs).verifyOk
          = some (Installer.verify_planning_commands.all
              (fun n => ((Installer.install_commands home cur err fs).fs.files
                  ((claudeCommandsPath home) ++ [n])).isSome)))
    ∧ (OutLine.usageGuide ∈ (Installer.main home cur err fs).log
        ↔ ((Installer.main home cur err fs).installedCount ≠ 0
            ∧ (Installer.main home cur err fs).verifyOk = some true)) := by
  refine ⟨?_, ?_, ?_⟩
  · rw [installer_main_exitCode, installer_main_installedCount, installer_main_verifyOk]
    split
    · rfl
    · cases hv : (Installer.verify_installation home
          (Installer.install_commands home cur err fs).fs).ok <;> simp [hv]
  · intro hne
    rw [installer_main_installedCount] at hne
    rw [installer_main_verifyOk, if_neg hne, verify_installation_ok]
  · rw [installer_main_installedCount, installer_main_verifyOk]
    simp only [Installer.main]
    split
    · next h =>
      constructor
      · intro hmem
        exfalso
        rcases List.mem_append.mp hmem with h' | h'
        · rcases List.mem_append.mp h' with h'' | h''
          · simp at h''
          · exact usage_not_mem_install_log home cur err fs h''
        · simp at h'
      · rintro ⟨hne, _⟩
        exact absurd h hne
    · next h =>
      split
      · next hv =>
        constructor
        · intro _
          exact ⟨h, by rw [hv]⟩
        · intro _
          simp [List.mem_append]
      · next hv =>
        constructor
        · intro hmem
          exfalso
          rcases List.mem_append.mp hmem with h' | h'
          · rcases List.mem_append.mp h' with h'' | h''
            · rcases List.mem_append.mp h'' with h3 | h3
              · simp at h3
              · exact usage_not_mem_install_log home cur err fs h3
            · exact usage_not_mem_verify_log home _ h''
          · simp at h'
        · rintro ⟨_, hsome⟩
          exfalso
          have hb : (Installer.verify_installation home
              (Installer.install_commands home cur err fs).fs).ok = false := by
            cases hx : (Installer.verify_installation home
                (Installer.install_commands home cur err fs).fs).ok with
            | true => exact absurd hx hv
            | false => rfl
          rw [hb] at hsome
          exact Bool.false_ne_true (Option.some.inj hsome)

/-- C2: the per-file copy loop of `install_commands` never raises past its
own boundary: every per-file failure is caught and reported and processing
continues, the returned count is exactly the number of manifest entries
whose copy succeeded, and entries with a missing source are reported
without a copy attempt and not counted.  (The count is the number of
entries with an existing source and no raised exception, and the output
contains exactly one report line per manifest entry, after the headers.) -/
theorem install_commands_isolates_failures (home cur : FsPath)
    (err : String → Option String) (fs : FS) :
    (Installer.install_commands home cur err fs).count
      = Installer.planning_commands.countP
          (fun n => (fs.files (srcPath cur n)).isSome && (err n).isNone)
    ∧ (Installer.install_commands home cur err fs).log
      = (if fs.dirs (claudeCommandsPath home) then [] else [OutLine.creatingDir])
        ++ [OutLine.installingCommands, OutLine.targetDirLine (claudeCommandsPath home)]
        ++ Installer.planning_commands.map (installReport cur err fs) :=
  ⟨install_commands_count home cur err fs, install_commands_log home cur err fs⟩

/-- An empty filesystem: no files, no directories. -/
def fsEmpty : FS := ⟨fun _ => none, fun _ => false⟩

/-- C3 counterexample: `verify_installation` is not purely observational on
every filesystem state — when the commands directory does not exist, its
call to the shared directory resolver creates that directory. -/
theorem verify_installation_modifies_fs :
    fsEmpty.dirs (claudeCommandsPath ["h"]) = false
    ∧ (Installer.verify_installation ["h"] fsEmpty).fs.dirs
        (claudeCommandsPath ["h"]) = true := by
  constructor
  · rfl
  · decide

/-- C3 (amended): `verify_installation` only checks existence of each of
the 10 manifest names in the target directory and reports OK/MISSING per
entry; it never creates, modifies or deletes any file and performs no
retry or repair — but its directory-resolution step does create the target
directory (and missing ancestors) when that directory does not exist. -/
theorem verify_installation_observational (home : FsPath) (fs : FS) :
    (Installer.verify_installation home fs).fs.files = fs.files
    ∧ (∀ p : FsPath, (Installer.verify_installation home fs).fs.dirs p
        = (fs.dirs p
           || (!fs.dirs (claudeCommandsPath home)
               && decide ((claudeCommandsPath home).take p.length = p))))
    ∧ (Installer.verify_installation home fs).ok
        = Installer.verify_planning_commands.all
            (fun n => (fs.files ((claudeCommandsPath home) ++ [n])).isSome)
    ∧ (Installer.verify_installation home fs).log
        = (if fs.dirs (claudeCommandsPath home) then [] else [OutLine.creatingDir])
          ++ [OutLine.verifyingInstallation]
          ++ Installer.verify_planning_commands.map
              (fun n => if (fs.files ((claudeCommandsPath home) ++ [n])).isSome
                then OutLine.verifyOk n else OutLine.verifyMissing n) :=
  ⟨verify_installation_files home fs, verify_installation_dirs home fs,
   verify_installation_ok home fs, verify_installation_log home fs⟩

/-- C4: for every manifest entry whose source exists and whose copy
succeeds, after `install_commands` (and after the whole installer run) the
target directory contains a file of that name whose bytes are exactly the
source's, overwriting whatever file of that name was there before. -/
theorem installer_copies_source_content (home cur : FsPath)
    (err : String → Option String) (fs : FS) (n : String) (c : FileData)
    (hmem : n ∈ Installer.planning_commands)
    (hsrc : fs.files (srcPath cur n) = some c) (herr : err n = none) :
    (Installer.install_commands home cur err fs).fs.files
        ((claudeCommandsPath home) ++ [n]) = some c
    ∧ (Installer.main home cur err fs).fs.files
        ((claudeCommandsPath home) ++ [n]) = some c := by
  refine ⟨install_commands_target home cur err fs n c hmem hsrc herr, ?_⟩
  rw [installer_main_fs]
  exact install_commands_target home cur err fs n c hmem hsrc herr

/-- The success count of a second installer run on the state left by a
first run equals the first run's count: the first run changes no source
file, and the count depends only on the sources and the copy oracle. -/
theorem install_commands_count_stable (home cur : FsPath)
    (err : String → Option String) (fs : FS) :
    (Installer.install_commands home cur err
        (Installer.main home cur err fs).fs).count
      = (Installer.install_commands home cur err fs).count := by
  rw [install_commands_count, install_commands_count]
  have hpred : (fun n => (((Installer.main home cur err fs).fs).files
        (srcPath cur n)).isSome && (err n).isNone)
      = (fun n => (fs.files (srcPath cur n)).isSome && (err n).isNone) := by
    funext n
    rw [installer_main_fs, install_commands_src_files]
  rw [hpred]

/-- C9: the installer is idempotent — whenever a first run of `main`
succeeds (exit code 0), a second run of `main` on the resulting filesystem
reports the same success count and the same verification result as the
first, and again exits 0. -/
theorem installer_idempotent (home cur : FsPath) (err : String → Option String)
    (fs : FS) (h : (Installer.main home cur err fs).exitCode = 0) :
    (Installer.main home cur err (Installer.main home cur err fs).fs).installedCount
      = (Installer.main home cur err fs).installedCount
    ∧ (Installer.main home cur err (Installer.main home cur err fs).fs).verifyOk
      = (Installer.main home cur err fs).verifyOk
    ∧ (Installer.main home cur err (Installer.main home cur err fs).fs).exitCode
      = 0 := by
  rw [installer_main_exitCode] at h
  by_cases h0 : (Installer.install_commands home cur err fs).count = 0
  · rw [if_pos h0] at h
    exact absurd h (by decide)
  · rw [if_neg h0] at h
    have hv : (Installer.verify_installation home
        (Installer.install_commands home cur err fs).fs).ok = true := by
      by_cases hvv : (Installer.verify_installation home
          (Installer.install_commands home cur err fs).fs).ok = true
      · exact hvv
      · rw [if_neg hvv] at h
        exact absurd h (by decide)
    have hc2 := install_commands_count_stable home cur err fs
    have h02 : ¬ (Installer.install_commands home cur err
        (Installer.main home cur err fs).fs).count = 0 := by
      rw [hc2]
      exact h0
    have hv2 : (Installer.verify_installation home
        (Installer.install_commands home cur err
          (Installer.main home cur err fs).fs).fs).ok = true := by
      rw [verify_installation_ok]
      rw [verify_installation_ok] at hv
      rw [List.all_eq_true] at hv ⊢
      intro n hn
      have h1 := hv n hn
      simp only [decide_eq_true_eq] at h1 ⊢
      apply install_commands_mono
      rw [installer_main_fs]
      exact h1
    refine ⟨?_, ?_, ?_⟩
    · rw [installer_main_installedCount, installer_main_installedCount, hc2]
    · rw [installer_main_verifyOk, installer_main_verifyOk,
        if_neg h0, if_neg h02, hv, hv2]
    · rw [installer_main_exitCode, if_neg h02, hv2]
      simp

/-- `map` respects pointwise-equal functions on the list's members. -/
theorem map_congr_mem {α β : Type} {f g : α → β} :
    ∀ (l : List α), (∀ a ∈ l, f a = g a) → l.map f = l.map g := by
  intro l
  induction l with
  | nil => intro _; rfl
  | cons a as ih =>
    intro h
    simp only [List.map_cons]
    rw [h a (List.mem_cons_self a as),
      ih (fun b hb => h b (List.mem_cons_of_mem a hb))]

/-- When the commands directory does not exist, `uninstall_commands`
reports "nothing to uninstall", touches nothing, and counts zero. -/
theorem uninstall_commands_missing_dir (home : FsPath)
    (delErr : String → Option String) (fs : FS)
    (h : fs.dirs (claudeCommandsPath home) = false) :
    Uninstaller.uninstall_commands home delErr fs
      = ⟨fs, 0, [OutLine.dirNotFound]⟩ := by
  simp only [Uninstaller.uninstall_commands, Uninstaller.get_claude_commands_dir]
  rw [if_neg (by simp [h])]

/-- `verify_uninstallation` succeeds iff every manifest name is absent. -/
theorem verify_uninstallation_ok (home : FsPath) (fs : FS) :
    (Uninstaller.verify_uninstallation home fs).1
      = Uninstaller.verify_planning_commands.all
          (fun n => !(fs.files ((claudeCommandsPath home) ++ [n])).isSome) := by
  simp only [Uninstaller.verify_uninstallation, Uninstaller.get_claude_commands_dir]
  rw [uninstallVerifyLoop_ok]

/-- Console output of `verify_uninstallation`: the header then exactly one
REMOVED/STILL-EXISTS line per manifest name. -/
theorem verify_uninstallation_log (home : FsPath) (fs : FS) :
    (Uninstaller.verify_uninstallation home fs).2
      = OutLine.verifyingUninstallation
        :: Uninstaller.verify_planning_commands.map
            (fun n => if (fs.files ((claudeCommandsPath home) ++ [n])).isSome
              then OutLine.verifyStillExists n else OutLine.verifyRemoved n) := by
  simp only [Uninstaller.verify_uninstallation, Uninstaller.get_claude_commands_dir]
  rw [uninstallVerifyLoop_log]

/-- On a filesystem with no manifest file present, `verify_uninstallation`
reports every name REMOVED and succeeds. -/
theorem verify_uninstallation_all_absent (home : FsPath) (fs : FS)
    (h : ∀ n ∈ Uninstaller.verify_planning_commands,
        fs.files ((claudeCommandsPath home) ++ [n]) = none) :
    (Uninstaller.verify_uninstallation home fs).1 = true
    ∧ (Uninstaller.verify_uninstallation home fs).2
      = OutLine.verifyingUninstallation
        :: Uninstaller.verify_planning_commands.map OutLine.verifyRemoved := by
  constructor
  · rw [verify_uninstallation_ok, List.all_eq_true]
    intro n hn
    rw [h n hn]
    rfl
  · rw [verify_uninstallation_log]
    congr 1
    apply map_congr_mem
    intro n hn
    rw [h n hn]
    rfl

/-- The cancelled branch of the uninstaller's `main`. -/
theorem uninstaller_main_cancel (home : FsPath) (resp1 resp2 : String)
    (delErr : String → Option String) (fs : FS)
    (h : Uninstaller.yesResponses.contains (strLower resp1) = false) :
    Uninstaller.main home resp1 resp2 delErr fs
      = ⟨fs, 0, none, none,
          [OutLine.uninstallerHeader, OutLine.confirmList] ++ [OutLine.cancelled]⟩ := by
  simp only [Uninstaller.main]
  rw [if_neg (by intro hc; rw [h] at hc; exact Bool.false_ne_true hc)]

/-- The confirmed branch of the uninstaller's `main`. -/
theorem uninstaller_main_confirmed (home : FsPath) (resp1 resp2 : String)
    (delErr : String → Option String) (fs : FS)
    (h : Uninstaller.yesResponses.contains (strLower resp1) = true) :
    Uninstaller.main home resp1 resp2 delErr fs
      = { fs := (Uninstaller.uninstall_commands home delErr fs).fs,
          exitCode := 0,
          removedCount := some (Uninstaller.uninstall_commands home delErr fs).count,
          allRemoved := some (Uninstaller.verify_uninstallation home
              (Uninstaller.uninstall_commands home delErr fs).fs).1,
          log := [OutLine.uninstallerHeader, OutLine.confirmList]
            ++ (Uninstaller.uninstall_commands home delErr fs).log
            ++ (Uninstaller.verify_uninstallation home
                (Uninstaller.uninstall_commands home delErr fs).fs).2
            ++ (if (Uninstaller.verify_uninstallation home
                  (Uninstaller.uninstall_commands home delErr fs).fs).1
                then [OutLine.uninstallSuccess
                        (Uninstaller.uninstall_commands home delErr fs).count]
                else [OutLine.uninstallIssues])
            ++ Uninstaller.cleanup_session_files resp2
            ++ [OutLine.uninstallCompleteBanner] } := by
  simp only [Uninstaller.main]
  rw [if_pos h]

/-- C6 (amended): for every confirmation response whose lowercasing is
neither `y` nor `yes` (including the empty default), the uninstaller
aborts before performing any file operation: the filesystem is left
completely unchanged, the output ends with the cancellation line, and the
process exits with status 0. -/
theorem uninstaller_declined_aborts (home : FsPath) (resp1 resp2 : String)
    (delErr : String → Option String) (fs : FS)
    (h : Uninstaller.yesResponses.contains (strLower resp1) = false) :
    (Uninstaller.main home resp1 resp2 delErr fs).fs = fs
    ∧ (Uninstaller.main home resp1 resp2 delErr fs).exitCode = 0
    ∧ (Uninstaller.main home resp1 resp2 delErr fs).log.getLast?
        = some OutLine.cancelled := by
  rw [uninstaller_main_cancel home resp1 resp2 delErr fs h]
  exact ⟨rfl, rfl, rfl⟩

/-- A filesystem whose commands directory exists and contains an installed
`plan.md` (with one byte of content). -/
def fsWithPlan : FS :=
  ⟨fun p => if p = (claudeCommandsPath ["h"]) ++ ["plan.md"] then some [49] else none,
   fun p => decide (p = claudeCommandsPath ["h"])⟩

/-- The oracle under which no per-file operation raises. -/
def noErr : String → Option String := fun _ => none

/-- C6 counterexample: the response `"y"` is not a case-insensitive
spelling of `"yes"`, yet the uninstaller does not abort on it: it proceeds,
removes the installed `plan.md`, and its output does not end with the
cancellation line. -/
theorem uninstaller_accepts_y :
    strLower "y" ≠ "yes"
    ∧ fsWithPlan.files ((claudeCommandsPath ["h"]) ++ ["plan.md"]) = some [49]
    ∧ (Uninstaller.main ["h"] "y" "n" noErr fsWithPlan).fs.files
        ((claudeCommandsPath ["h"]) ++ ["plan.md"]) = none
    ∧ (Uninstaller.main ["h"] "y" "n" noErr fsWithPlan).log.getLast?
        ≠ some OutLine.cancelled := by
  refine ⟨by decide, by decide, by decide, by decide⟩

/-- C7: when the commands directory does not exist, the uninstaller's
removal step reports zero removals, performs no per-file removal work
(its only output is the "nothing to uninstall" line), and leaves the
filesystem — in particular the directory map — completely unchanged. -/
theorem uninstaller_missing_dir_noop (home : FsPath)
    (delErr : String → Option String) (fs : FS)
    (h : fs.dirs (claudeCommandsPath home) = false) :
    (Uninstaller.uninstall_commands home delErr fs).fs = fs
    ∧ (Uninstaller.uninstall_commands home delErr fs).count = 0
    ∧ (Uninstaller.uninstall_commands home delErr fs).log = [OutLine.dirNotFound] := by
  rw [uninstall_commands_missing_dir home delErr fs h]
  exact ⟨rfl, rfl, rfl⟩

/-- C8: in every confirmed uninstaller run, the verification outcome never
changes the exit status: the exit code is 0 regardless, the cleanup
guidance prompt is always offered, a failed verification contributes only
the warning line, and a successful one the success line. -/
theorem uninstaller_verify_not_gating (home : FsPath) (resp1 resp2 : String)
    (delErr : String → Option String) (fs : FS)
    (h : Uninstaller.yesResponses.contains (strLower resp1) = true) :
    (Uninstaller.main home resp1 resp2 delErr fs).exitCode = 0
    ∧ OutLine.cleanupPromptShown ∈ (Uninstaller.main home resp1 resp2 delErr fs).log
    ∧ ((Uninstaller.main home resp1 resp2 delErr fs).allRemoved = some false →
        OutLine.uninstallIssues ∈ (Uninstaller.main home resp1 resp2 delErr fs).log)
    ∧ ((Uninstaller.main home resp1 resp2 delErr fs).allRemoved = some true →
        OutLine.uninstallSuccess (Uninstaller.uninstall_commands home delErr fs).count
          ∈ (Uninstaller.main home resp1 resp2 delErr fs).log) := by
  rw [uninstaller_main_confirmed home resp1 resp2 delErr fs h]
  refine ⟨rfl, ?_, ?_, ?_⟩
  · apply List.mem_append_left
    apply List.mem_append_right
    simp [Uninstaller.cleanup_session_files]
  · intro hfalse
    have hb := Option.some.inj hfalse
    apply List.mem_append_left
    apply List.mem_append_left
    apply List.mem_append_right
    rw [hb]
    simp
  · intro htrue
    have hb := Option.some.inj htrue
    apply List.mem_append_left
    apply List.mem_append_left
    apply List.mem_append_right
    rw [hb]
    simp

/-- C10: when the commands directory does not exist and the operator
confirms, the uninstaller still runs its full remaining flow: verification
checks each manifest name against the nonexistent directory and reports
every one REMOVED (an all-removed result), the success message reporting 0
removed commands is printed, the cleanup-guidance prompt and the completion
banner still occur, the process exits 0, and the filesystem (in particular
the directory map) is unchanged. -/
theorem uninstaller_missing_dir_full_flow (home : FsPath) (resp1 resp2 : String)
    (delErr : String → Option String) (fs : FS)
    (h1 : Uninstaller.yesResponses.contains (strLower resp1) = true)
    (h2 : fs.dirs (claudeCommandsPath home) = false)
    (h3 : ∀ n ∈ Uninstaller.verify_planning_commands,
        fs.files ((claudeCommandsPath home) ++ [n]) = none) :
    (Uninstaller.main home resp1 resp2 delErr fs).fs = fs
    ∧ (Uninstaller.main home resp1 resp2 delErr fs).exitCode = 0
    ∧ (Uninstaller.main home resp1 resp2 delErr fs).removedCount = some 0
    ∧ (Uninstaller.main home resp1 resp2 delErr fs).allRemoved = some true
    ∧ OutLine.uninstallSuccess 0 ∈ (Uninstaller.main home resp1 resp2 delErr fs).log
    ∧ (∀ n ∈ Uninstaller.verify_planning_commands,
        OutLine.verifyRemoved n ∈ (Uninstaller.main home resp1 resp2 delErr fs).log)
    ∧ OutLine.cleanupPromptShown ∈ (Uninstaller.main home resp1 resp2 delErr fs).log
    ∧ OutLine.uninstallCompleteBanner
        ∈ (Uninstaller.main home resp1 resp2 delErr fs).log := by
  rw [uninstaller_main_confirmed home resp1 resp2 delErr fs h1,
    uninstall_commands_missing_dir home delErr fs h2]
  have hva := verify_uninstallation_all_absent home fs h3
  refine ⟨rfl, rfl, rfl, ?_, ?_, ?_, ?_, ?_⟩
  · show some (Uninstaller.verify_uninstallation home fs).1 = some true
    rw [hva.1]
  · apply List.mem_append_left
    apply List.mem_append_left
    apply List.mem_append_right
    show OutLine.uninstallSuccess 0
      ∈ (if (Uninstaller.verify_uninstallation home fs).1
          then [OutLine.uninstallSuccess 0] else [OutLine.uninstallIssues])
    rw [hva.1]
    simp
  · intro n hn
    apply List.mem_append_left
    apply List.mem_append_left
    apply List.mem_append_left
    apply List.mem_append_right
    show OutLine.verifyRemoved n ∈ (Uninstaller.verify_uninstallation home fs).2
    rw [hva.2]
    exact List.mem_cons_of_mem _ (List.mem_map_of_mem _ hn)
  · apply List.mem_append_left
    apply List.mem_append_right
    simp [Uninstaller.cleanup_session_files]
  · apply List.mem_append_right
    simp

/-- A filesystem holding a source `plan.md` and a pre-existing target
`plan.md` with different content. -/
def fsC4 : FS :=
  ⟨fun p => if p = srcPath ["c"] "plan.md" then some [49]
    else if p = (claudeCommandsPath ["h"]) ++ ["plan.md"] then some [99] else none,
   fun _ => true⟩

/-- Witness for the copy-semantics theorem at a concrete input on which the
target pre-exists with different content and is overwritten. -/
theorem installer_copies_source_content_witness :
    "plan.md" ∈ Installer.planning_commands
    ∧ fsC4.files (srcPath ["c"] "plan.md") = some [49]
    ∧ noErr "plan.md" = none
    ∧ fsC4.files ((claudeCommandsPath ["h"]) ++ ["plan.md"]) = some [99]
    ∧ ((Installer.install_commands ["h"] ["c"] noErr fsC4).fs.files
          ((claudeCommandsPath ["h"]) ++ ["plan.md"]) = some [49]
       ∧ (Installer.main ["h"] ["c"] noErr fsC4).fs.files
          ((claudeCommandsPath ["h"]) ++ ["plan.md"]) = some [49]) :=
  ⟨by decide, by decide, rfl, by decide,
   installer_copies_source_content ["h"] ["c"] noErr fsC4 "plan.md" [49]
     (by decide) (by decide) rfl⟩

/-- Witness for the declined-confirmation theorem at the empty default
response. -/
theorem uninstaller_declined_aborts_witness :
    Uninstaller.yesResponses.contains (strLower "") = false
    ∧ ((Uninstaller.main ["h"] "" "n" noErr fsWithPlan).fs = fsWithPlan
       ∧ (Uninstaller.main ["h"] "" "n" noErr fsWithPlan).exitCode = 0
       ∧ (Uninstaller.main ["h"] "" "n" noErr fsWithPlan).log.getLast?
           = some OutLine.cancelled) :=
  ⟨by decide, uninstaller_declined_aborts ["h"] "" "n" noErr fsWithPlan (by decide)⟩

/-- Witness for the missing-directory uninstall theorem on the empty
filesystem. -/
theorem uninstaller_missing_dir_noop_witness :
    fsEmpty.dirs (claudeCommandsPath ["h"]) = false
    ∧ ((Uninstaller.uninstall_commands ["h"] noErr fsEmpty).fs = fsEmpty
       ∧ (Uninstaller.uninstall_commands ["h"] noErr fsEmpty).count = 0
       ∧ (Uninstaller.uninstall_commands ["h"] noErr fsEmpty).log
           = [OutLine.dirNotFound]) :=
  ⟨rfl, uninstaller_missing_dir_noop ["h"] noErr fsEmpty rfl⟩

/-- An oracle whose `unlink` raises on `plan.md`. -/
def failPlan : String → Option String :=
  fun n => if n = "plan.md" then some "Permission denied" else none

/-- Witness for the verification-does-not-gate-exit theorem on a confirmed
run (response `YES`) whose removal of `plan.md` fails, so verification
reports a leftover. -/
theorem uninstaller_verify_not_gating_witness :
    Uninstaller.yesResponses.contains (strLower "YES") = true
    ∧ ((Uninstaller.main ["h"] "YES" "n" failPlan fsWithPlan).exitCode = 0
       ∧ OutLine.cleanupPromptShown
           ∈ (Uninstaller.main ["h"] "YES" "n" failPlan fsWithPlan).log
       ∧ ((Uninstaller.main ["h"] "YES" "n" failPlan fsWithPlan).allRemoved
             = some false →
           OutLine.uninstallIssues
             ∈ (Uninstaller.main ["h"] "YES" "n" failPlan fsWithPlan).log)
       ∧ ((Uninstaller.main ["h"] "YES" "n" failPlan fsWithPlan).allRemoved
             = some true →
           OutLine.uninstallSuccess
               (Uninstaller.uninstall_commands ["h"] failPlan fsWithPlan).count
             ∈ (Uninstaller.main ["h"] "YES" "n" failPlan fsWithPlan).log)) :=
  ⟨by decide,
   uninstaller_verify_not_gating ["h"] "YES" "n" failPlan fsWithPlan (by decide)⟩

/-- A filesystem holding all 10 source command files next to the script. -/
def fsAllSources : FS :=
  ⟨fun p => if (Installer.planning_commands.map (srcPath ["c"])).contains p
      then some [48] else none,
   fun _ => false⟩

/-- Witness for the idempotence theorem on a fully successful first run. -/
theorem installer_idempotent_witness :
    (Installer.main ["h"] ["c"] noErr fsAllSources).exitCode = 0
    ∧ ((Installer.main ["h"] ["c"] noErr
          (Installer.main ["h"] ["c"] noErr fsAllSources).fs).installedCount
        = (Installer.main ["h"] ["c"] noErr fsAllSources).installedCount
       ∧ (Installer.main ["h"] ["c"] noErr
            (Installer.main ["h"] ["c"] noErr fsAllSources).fs).verifyOk
          = (Installer.main ["h"] ["c"] noErr fsAllSources).verifyOk
       ∧ (Installer.main ["h"] ["c"] noErr
            (Installer.main ["h"] ["c"] noErr fsAllSources).fs).exitCode = 0) :=
  ⟨by decide, installer_idempotent ["h"] ["c"] noErr fsAllSources (by decide)⟩

/-- Witness for the full-flow-on-missing-directory theorem on the empty
filesystem with a confirming response. -/
theorem uninstaller_missing_dir_full_flow_witness :
    Uninstaller.yesResponses.contains (strLower "y") = true
    ∧ fsEmpty.dirs (claudeCommandsPath ["h"]) = false
    ∧ (∀ n ∈ Uninstaller.verify_planning_commands,
        fsEmpty.files ((claudeCommandsPath ["h"]) ++ [n]) = none)
    ∧ ((Uninstaller.main ["h"] "y" "n" noErr fsEmpty).fs = fsEmpty
       ∧ (Uninstaller.main ["h"] "y" "n" noErr fsEmpty).exitCode = 0
       ∧ (Uninstaller.main ["h"] "y" "n" noErr fsEmpty).removedCount = some 0
       ∧ (Uninstaller.main ["h"] "y" "n" noErr fsEmpty).allRemoved = some true
       ∧ OutLine.uninstallSuccess 0 ∈ (Uninstaller.main ["h"] "y" "n" noErr fsEmpty).log
       ∧ (∀ n ∈ Uninstaller.verify_planning_commands,
           OutLine.verifyRemoved n
             ∈ (Uninstaller.main ["h"] "y" "n" noErr fsEmpty).log)
       ∧ OutLine.cleanupPromptShown
           ∈ (Uninstaller.main ["h"] "y" "n" noErr fsEmpty).log
       ∧ OutLine.uninstallCompleteBanner
           ∈ (Uninstaller.main ["h"] "y" "n" noErr fsEmpty).log) :=
  ⟨by decide, rfl, by decide,
   uninstaller_missing_dir_full_flow ["h"] "y" "n" noErr fsEmpty
     (by decide) rfl (by decide)⟩
